import Mathlib

/-!
Shallow embedding of `src/server.py` (an LLM-driven generate-and-publish
HTTP service) together with proofs about the claims of its specification.

Conventions of the embedding:
* Python strings are modelled as `String` / `List Char` (ASCII view of
  `str.strip` / `str.lower`).
* `str.replace(old, "")` with a non-empty pattern is modelled by
  `replaceAll`: a left-to-right, non-overlapping scan of the original
  string, exactly as CPython implements it (no rescan of the output).
* External collaborators (GitHub API, the LLM completion call,
  `base64.b64decode`, the callback endpoint, the cloned working tree)
  are inputs of the model, collected in `Env`; the server code itself is
  translated function by function.
* `dict.get` of a possibly-missing JSON field is `Option`.
* Fallible handlers return an `HResult` (the FastAPI 200 body or an
  `HTTPException` status/detail pair); outbound effects are recorded in
  a trace of `Act`s.
-/

/-- ASCII whitespace, as stripped by Python's `str.strip()`. -/
def isSpace (c : Char) : Bool :=
  c == ' ' || c == '\t' || c == '\n' || c == '\r' || c == '\x0b' || c == '\x0c'

/-- Fuelled worker for `replaceAll`.  One unit of fuel is spent per step;
`fuel = s.length` is always enough because each step consumes at least one
character of `s` (the pattern is non-empty at every use site). -/
def replaceAllFuel (p : List Char) : Nat → List Char → List Char
  | 0, s => s
  | _ + 1, [] => []
  | fuel + 1, c :: rest =>
    if p.isPrefixOf (c :: rest) then
      replaceAllFuel p fuel (rest.drop (p.length - 1))
    else
      c :: replaceAllFuel p fuel rest

/-- Model of Python `s.replace(p, "")` for a non-empty pattern `p`:
delete every occurrence of `p`, scanning left to right without overlap. -/
def replaceAll (p s : List Char) : List Char :=
  replaceAllFuel p s.length s

/-- Model of Python `s.strip()`, leading part. -/
def stripLeft (s : List Char) : List Char := s.dropWhile isSpace

/-- Model of Python `s.strip()`, trailing part. -/
def stripRight (s : List Char) : List Char :=
  (s.reverse.dropWhile isSpace).reverse

/-- Model of Python `s.strip()`. -/
def strip (s : List Char) : List Char := stripRight (stripLeft s)

/-- The fenced-code opener removed first at `server.py:166`. -/
def phPat : List Char := "```html".toList

/-- The fence delimiter removed second at `server.py:166`. -/
def btPat : List Char := "```".toList

/-- Sanitization of the model output, `server.py:164-166`:
`content.strip()`, then `.replace("```html", "")`, then
`.replace("```", "")`, then `.strip()`. -/
def sanitizeList (s : List Char) : List Char :=
  strip (replaceAll btPat (replaceAll phPat (strip s)))

/-- Version of `sanitizeList` on `String`. -/
def sanitize (s : String) : String := (sanitizeList s.toList).asString

/-- Loop of `post_with_retry` (`server.py:186-203`).
`responds k = true` means the POST of attempt index `k` (0-based) returned
status 200.  Arguments: remaining attempts, current attempt index, current
delay, total time slept so far.  Returns (success, attempts made, total
time slept).  `time.sleep(delay)` happens only when the attempt failed and
was not the last one, and the delay doubles after each sleep. -/
def postLoop (responds : Nat → Bool) : Nat → Nat → Nat → Nat → Bool × Nat × Nat
  | 0, attempt, _, slept => (false, attempt, slept)
  | remaining + 1, attempt, delay, slept =>
    if responds attempt then
      (true, attempt + 1, slept)
    else if remaining == 0 then
      (false, attempt + 1, slept)
    else
      postLoop responds remaining (attempt + 1) (delay * 2) (slept + delay)

/-- Model of `post_with_retry(url, payload, max_attempts)`:
initial delay 1, exponential backoff.  The url/payload only feed the POST
itself, which the model abstracts into `responds`. -/
def post_with_retry (responds : Nat → Bool) (maxAttempts : Nat) : Bool × Nat × Nat :=
  postLoop responds maxAttempts 0 1 0

/-- Model of `os.path.join(d, n)` as used at `server.py:36`: an absolute
second component discards the first (temporary directories have no
trailing separator). -/
def joinPath (d n : String) : String :=
  match n.data with
  | '/' :: _ => n
  | _ => d ++ "/" ++ n

/-- The path `p` names a file inside directory `d` (used to state the
sandboxing property of claim C8). -/
def isUnderDir (d p : String) : Bool :=
  (d ++ "/").data.isPrefixOf p.data

/-- Remainder of `s` after the first occurrence of `sep`, if any
(`none` exactly when `sep` does not occur in `s`). -/
def afterFirstSub (sep : List Char) : List Char → Option (List Char)
  | [] => none
  | c :: rest =>
    if sep.isPrefixOf (c :: rest) then some ((c :: rest).drop sep.length)
    else afterFirstSub sep rest

/-- Model of the Python substring test `sep in s`. -/
def containsSub (sep s : List Char) : Bool := (afterFirstSub sep s).isSome

/-- Prefix of `s` up to (excluding) the first occurrence of `sep`. -/
def takeUntilSub (sep : List Char) : List Char → List Char
  | [] => []
  | c :: rest =>
    if sep.isPrefixOf (c :: rest) then []
    else c :: takeUntilSub sep rest

/-- The marker probed at `server.py:38`. -/
def b64Marker : List Char := "base64,".toList

/-- Model of `data_uri.split("base64,")[1]` (`server.py:39`): the segment
between the first occurrence of the marker and the next one (or the end).
Only evaluated when the marker occurs, so the `none` fallback is unreachable
at the call site. -/
def splitSegAfterBase64 (u : String) : String :=
  match afterFirstSub b64Marker u.data with
  | some t => (takeUntilSub b64Marker t).asString
  | none => ""

/-- One attachment entry of the request JSON; either key may be missing
(`attach["name"]` / `attach["url"]` then raise `KeyError`). -/
structure AttachJson where
  name : Option String
  url : Option String
deriving DecidableEq

/-- Model of `handle_attachments(tmpdir, attachments)` (`server.py:31-45`).
`decode` is `base64.b64decode` (`none` = `binascii.Error`).  Returns the
list of files successfully written (path, bytes-as-text) in write order,
and the returned `attachment_files` name list.  Every exception inside
the loop body (missing key, bad base64) only skips that entry.  The full
on-disk effect of the loop, including the truncation that `open(path,
"wb")` performs even when the subsequent decode raises, is
`attachmentWrites` below. -/
def handle_attachments (decode : String → Option String) (tmpdir : String) :
    List AttachJson → List (String × String) × List String
  | [] => ([], [])
  | a :: rest =>
    match a.name with
    | none => handle_attachments decode tmpdir rest
    | some nm =>
      match a.url with
      | none => handle_attachments decode tmpdir rest
      | some u =>
        if containsSub b64Marker u.data then
          match decode (splitSegAfterBase64 u) with
          | none => handle_attachments decode tmpdir rest
          | some bytes =>
            let r := handle_attachments decode tmpdir rest
            ((joinPath tmpdir nm, bytes) :: r.1, nm :: r.2)
        else
          handle_attachments decode tmpdir rest

/-- On-disk effect of the `handle_attachments` loop (`server.py:36-41`),
in order.  When the marker test passes, `open(path, "wb")` truncates or
creates the file at the joined path *before* `base64.b64decode` runs, so
an entry whose payload fails to decode still leaves an empty file there
(the exception skips only the `f.write` and the name bookkeeping); an
entry that decodes leaves its decoded bytes. -/
def attachmentWrites (decode : String → Option String) (tmpdir : String) :
    List AttachJson → List (String × String)
  | [] => []
  | a :: rest =>
    match a.name with
    | none => attachmentWrites decode tmpdir rest
    | some nm =>
      match a.url with
      | none => attachmentWrites decode tmpdir rest
      | some u =>
        if containsSub b64Marker u.data then
          match decode (splitSegAfterBase64 u) with
          | none => (joinPath tmpdir nm, "") :: attachmentWrites decode tmpdir rest
          | some bytes => (joinPath tmpdir nm, bytes) :: attachmentWrites decode tmpdir rest
        else
          attachmentWrites decode tmpdir rest

/-- Per-entry summary of the `handle_attachments` loop body: `some
(path, bytes, name)` when the entry is written, `none` when it is skipped
(missing field, no marker, or decode error). -/
def processAttachment (decode : String → Option String) (tmpdir : String)
    (a : AttachJson) : Option (String × String × String) :=
  match a.name with
  | none => none
  | some nm =>
    match a.url with
    | none => none
    | some u =>
      if containsSub b64Marker u.data then
        match decode (splitSegAfterBase64 u) with
        | none => none
        | some bytes => some (joinPath tmpdir nm, bytes, nm)
      else none

/-- Model of the slug built at `server.py:232`: task and nonce joined by
a hyphen, spaces replaced by hyphens, lowercased (ASCII view of
`str.lower`). -/
def slugify (s : String) : String :=
  ((s.data.map (fun c => if c = ' ' then '-' else c)).map Char.toLower).asString

/-- Derived round-1 project identity. -/
def round1RepoName (task nonce : String) : String :=
  slugify (task ++ "-" ++ nonce)

/-- Model of `s.rstrip('/')`. -/
def rstripSlash (s : String) : String :=
  ((s.data.reverse.dropWhile (fun c => c == '/')).reverse).asString

/-- Model of `prev_repo_url.rstrip('/').split('/')[-1]` (`server.py:311`). -/
def lastSegment (s : String) : String :=
  (((rstripSlash s).data.reverse.takeWhile (fun c => c ≠ '/')).reverse).asString

/-- Model of `generate_readme_content` (`server.py:47-92`). -/
def generate_readme_content (task brief : String) (checks : List String)
    (attachment_files : List String) : String :=
  let readme :=
    "# " ++ task ++
    "\n\n## Summary\nThis project was automatically generated to fulfill the following requirement:\n\n"
    ++ brief ++
    "\n\n## Setup\n1. Clone this repository:\n   ```bash\n   git clone https://github.com/<username>/"
    ++ task ++ ".git\n   cd " ++ task ++
    "\n   ```\n2. Open `index.html` in a web browser, or deploy via GitHub Pages\n\n## Usage\n- Open the deployed GitHub Pages URL or open `index.html` locally\n- The application will automatically load and execute according to the brief requirements\n"
  let readme :=
    if attachment_files.isEmpty then readme
    else readme ++ "\n## Included Files\n"
      ++ String.join (attachment_files.map (fun fname => "- `" ++ fname ++ "`\n"))
  let readme :=
    if checks.isEmpty then readme
    else readme ++ "\n## Evaluation Criteria\nThis application is evaluated against the following checks:\n"
      ++ String.join (checks.map (fun check => "- " ++ check ++ "\n"))
  readme ++
    "\n## Code Explanation\nThe application is built as a single-page HTML file (`index.html`) that includes:\n- **HTML Structure**: Semantic markup with proper accessibility attributes\n- **CSS Styling**: Utilizes Bootstrap 5 for responsive design\n- **JavaScript Logic**: Handles the core functionality as specified in the brief\n- All dependencies are loaded from CDNs for easy deployment\n\nThe code was generated using AI assistance based on the project brief and automatically deployed to GitHub.\n\n## License\nMIT License - See LICENSE file for details\n"

/-- Model of `generate_license_content` (`server.py:94-117`). -/
def generate_license_content (github_user_login : String) : String :=
  "MIT License\n\nCopyright (c) 2025 " ++ github_user_login ++
  "\n\nPermission is hereby granted, free of charge, to any person obtaining a copy\nof this software and associated documentation files (the \"Software\"), to deal\nin the Software without restriction, including without limitation the rights\nto use, copy, modify, merge, publish, distribute, sublicense, and/or sell\ncopies of the Software, and to permit persons to whom the Software is\nfurnished to do so, subject to the following conditions:\n\nThe above copyright notice and this permission notice shall be included in all\ncopies or substantial portions of the Software.\n\nTHE SOFTWARE IS PROVIDED \"AS IS\", WITHOUT WARRANTY OF ANY KIND, EXPRESS OR\nIMPLIED, INCLUDING BUT NOT LIMITED TO THE WARRANTIES OF MERCHANTABILITY,\nFITNESS FOR A PARTICULAR PURPOSE AND NONINFRINGEMENT. IN NO EVENT SHALL THE\nAUTHORS OR COPYRIGHT HOLDERS BE LIABLE FOR ANY CLAIM, DAMAGES OR OTHER\nLIABILITY, WHETHER IN AN ACTION OF CONTRACT, TORT OR OTHERWISE, ARISING FROM,\nOUT OF OR IN CONNECTION WITH THE SOFTWARE OR THE USE OR OTHER DEALINGS IN THE\nSOFTWARE.\n"

/-- The dated section appended to `README.md` on round > 1
(`server.py:343-348`). -/
def roundUpdateSection (round_num : Int) (brief : String) (checks : List String) : String :=
  "\n\n---\n\n## Round " ++ toString round_num ++ " Update\n\n**Brief**: " ++ brief ++ "\n\n"
  ++ (if checks.isEmpty then ""
      else "**New Evaluation Criteria**:\n"
        ++ String.join (checks.map (fun check => "- " ++ check ++ "\n")))

/-- Outcome of the round-1 existence probe `gh.get_repo(full_repo_name)`
(`server.py:236-241`): the repository was found, a `GithubException` with
status 404 was raised, or a `GithubException` with another status. -/
inductive RepoCheck where
  | found
  | notFound
  | apiError
deriving DecidableEq

/-- External world as observed by one request: configuration, GitHub API
responses, the LLM completion, `base64.b64decode`, the cloned working
tree, and the callback endpoint. -/
structure Env where
  /-- Value of `os.getenv("ALLOWED_SECRET_FOR_TESTING")`, the single allow-list entry. -/
  envSecret : Option String
  /-- whether the OpenAI client was constructed (`server.py:18-26`). -/
  clientConfigured : Bool
  /-- Login returned by `gh.get_user()`. -/
  userLogin : String
  /-- round-1 existence probe, by full repository name. -/
  repoCheck : String → RepoCheck
  /-- whether `user.create_repo` succeeds. -/
  createOk : Bool
  /-- whether the `subprocess.run` git invocations succeed. -/
  gitOk : Bool
  /-- status of the Pages enablement POST (`server.py:284-293`, logged only). -/
  pagesStatus : Nat
  /-- round>1 `gh.get_repo`: `true` = found, `false` = `GithubException`. -/
  repoFound : String → Bool
  /-- files of the cloned working tree (name, content), round>1. -/
  cloneFiles : List (String × String)
  /-- Behaviour of `base64.b64decode` (`none` = `binascii.Error`). -/
  decode : String → Option String
  /-- the completion call: error message of a raised exception, or the
  returned message content. -/
  llmResponse : Except String String
  /-- Commit id `repo.get_branch("main").commit.sha`. -/
  branchSha : String
  /-- Value of `repo.html_url`, by full repository name. -/
  repoHtmlUrl : String → String
  /-- per-attempt outcome of the callback POST: `true` = status 200. -/
  callbackResponds : Nat → Bool
  /-- the `tempfile.TemporaryDirectory` path. -/
  tmpdir : String

/-- Body of `POST /api-endpoint` after `request.json()`.  `email`,
`secret`, `round` and `repo_url` are read with `data.get` and may be
absent; the remaining fields are modelled as present. -/
structure RequestData where
  email : Option String
  secret : Option String
  brief : String
  task : String
  evaluation_url : String
  nonce : String
  round : Option Int
  repo_url : Option String
  attachments : List AttachJson
  checks : List String

/-- Outbound calls performed while handling a request, in order. -/
inductive Act where
  | ghGetUser
  | ghGetRepo
  | llmGenerate
  | ghCreateRepo
  | gitClone
  | gitPush
  | enablePages
  | postCallback
deriving DecidableEq

/-- Response of `handle_request`: the 200 body (`server.py:381-387`) or an
`HTTPException` (status, detail). -/
inductive HResult where
  | ok (repo_url pages_url commit_sha : String)
  | httpError (status : Nat) (detail : String)
deriving DecidableEq

/-- Full observable outcome of one request: HTTP result, trace of outbound
calls, and the staging-directory file system when the handler returned
(path to content). -/
structure Outcome where
  result : HResult
  trace : List Act
  fs : String → Option String

/-- The empty staging directory. -/
def fsEmpty : String → Option String := fun _ => none

/-- Write (create or truncate) one file. -/
def fsWrite (fs : String → Option String) (p c : String) : String → Option String :=
  fun q => if q = p then some c else fs q

/-- Write a list of files in order (later writes win). -/
def fsWriteAll (fs : String → Option String) (ws : List (String × String)) :
    String → Option String :=
  ws.foldl (fun f w => fsWrite f w.1 w.2) fs

/-- Staging content after `git clone` populated the temporary directory. -/
def cloneFs (env : Env) : String → Option String :=
  fsWriteAll fsEmpty (env.cloneFiles.map (fun wc => (joinPath env.tmpdir wc.1, wc.2)))

/-- Model of `ALLOWED.get(email)` where
the allow-list maps the single email "student@example.com" to the secret from the environment
(`server.py:28`); a missing email key (or a request without an email
field) looks up to `None`. -/
def ALLOWED_get (envSecret : Option String) (email : Option String) : Option String :=
  match email with
  | some e => if e = "student@example.com" then envSecret else none
  | none => none

/-- Model of `generate_code_with_llm` (`server.py:119-170`).  The prompt
construction (lines 124-154) only shapes the outbound call, whose outcome
the model takes from `llmResponse`; `brief`, `attachments`, `round_num`
and `existing_code` are kept for signature fidelity.  An exception from
the completion call maps to `HTTPException(500, "Failed to generate code:
...")`; otherwise the sanitized content is returned — even when it is
empty. -/
def generate_code_with_llm (clientConfigured : Bool)
    (llmResponse : Except String String) (brief : String)
    (attachments : List AttachJson) (round_num : Int)
    (existing_code : Option String) : Except (Nat × String) String :=
  if !clientConfigured then
    Except.error (500, "AI Pipe client not configured.")
  else
    match llmResponse with
    | Except.error e => Except.error (500, "Failed to generate code: " ++ e)
    | Except.ok content => Except.ok (sanitize content)

/-- Common tail of both rounds (`server.py:366-387`): POST the result
payload to `evaluation_url` with `post_with_retry`; on failure raise
`HTTPException(500)`, otherwise return the 200 body. -/
def finishNotify (env : Env) (tr : List Act) (fs : String → Option String)
    (final_repo_url pages_url commit_sha : String) : Outcome :=
  let tr := tr ++ [Act.postCallback]
  if (post_with_retry env.callbackResponds 5).1 then
    { result := HResult.ok final_repo_url pages_url commit_sha, trace := tr, fs := fs }
  else
    { result := HResult.httpError 500 "Failed to notify evaluation URL", trace := tr, fs := fs }

/-- Round-1 branch of `handle_request` (`server.py:230-302`).  The Pages
enablement status (`pagesStatus`) and the best-effort
`verify_pages_active` poll (lines 290-302) only print; the poll's result
is discarded by the caller, so neither affects the outcome. -/
def handleRound1 (env : Env) (data : RequestData) (round_num : Int) : Outcome :=
  let repo_name := round1RepoName data.task data.nonce
  let full_repo_name := env.userLogin ++ "/" ++ repo_name
  let tr := [Act.ghGetUser, Act.ghGetRepo]
  match env.repoCheck full_repo_name with
  | RepoCheck.found =>
    { result := HResult.httpError 409
        ("Repository '" ++ full_repo_name ++ "' already exists"),
      trace := tr, fs := fsEmpty }
  | RepoCheck.apiError =>
    { result := HResult.httpError 500 "Unexpected error: GitHub API error",
      trace := tr, fs := fsEmpty }
  | RepoCheck.notFound =>
    let ha := handle_attachments env.decode env.tmpdir data.attachments
    let fs1 := fsWriteAll fsEmpty (attachmentWrites env.decode env.tmpdir data.attachments)
    let tr := tr ++ [Act.llmGenerate]
    match generate_code_with_llm env.clientConfigured env.llmResponse
        data.brief data.attachments round_num none with
    | Except.error e =>
      { result := HResult.httpError e.1 e.2, trace := tr, fs := fs1 }
    | Except.ok html_content =>
      let readme_content := generate_readme_content data.task data.brief data.checks ha.2
      let license_content := generate_license_content env.userLogin
      let fs2 := fsWrite (fsWrite (fsWrite fs1
          (joinPath env.tmpdir "index.html") html_content)
          (joinPath env.tmpdir "README.md") readme_content)
          (joinPath env.tmpdir "LICENSE") license_content
      let tr := tr ++ [Act.ghCreateRepo]
      if !env.createOk then
        { result := HResult.httpError 500 "Unexpected error: create_repo failed",
          trace := tr, fs := fs2 }
      else if !env.gitOk then
        { result := HResult.httpError 500 "Unexpected error: git command failed",
          trace := tr, fs := fs2 }
      else
        let tr := tr ++ [Act.gitPush, Act.enablePages]
        let commit_sha := env.branchSha
        let final_repo_url := env.repoHtmlUrl full_repo_name
        let pages_url := "https://" ++ env.userLogin ++ ".github.io/" ++ repo_name ++ "/"
        finishNotify env tr fs2 final_repo_url pages_url commit_sha

/-- Round>1 branch of `handle_request` (`server.py:304-359`).  Note
`if not prev_repo_url` also rejects an empty string, and the round>1
`gh.get_repo` maps any `GithubException` to 404. -/
def handleRound2 (env : Env) (data : RequestData) (round_num : Int) : Outcome :=
  let badRepoUrl : Outcome :=
    { result := HResult.httpError 400 "repo_url required for round 2",
      trace := [Act.ghGetUser], fs := fsEmpty }
  match data.repo_url with
  | none => badRepoUrl
  | some prev_repo_url =>
    if prev_repo_url = "" then badRepoUrl
    else
      let repo_name := lastSegment prev_repo_url
      let full_repo_name := env.userLogin ++ "/" ++ repo_name
      let tr := [Act.ghGetUser, Act.ghGetRepo]
      if !env.repoFound full_repo_name then
        { result := HResult.httpError 404
            ("Repository " ++ full_repo_name ++ " not found"),
          trace := tr, fs := fsEmpty }
      else if !env.gitOk then
        { result := HResult.httpError 500 "Unexpected error: git command failed",
          trace := tr ++ [Act.gitClone], fs := fsEmpty }
      else
        let tr := tr ++ [Act.gitClone]
        let fs0 := cloneFs env
        let fs1 := fsWriteAll fs0 (attachmentWrites env.decode env.tmpdir data.attachments)
        let existing_html := (fs1 (joinPath env.tmpdir "index.html")).getD ""
        let tr := tr ++ [Act.llmGenerate]
        match generate_code_with_llm env.clientConfigured env.llmResponse
            data.brief data.attachments round_num (some existing_html) with
        | Except.error e =>
          { result := HResult.httpError e.1 e.2, trace := tr, fs := fs1 }
        | Except.ok new_html_content =>
          let fs2 := fsWrite fs1 (joinPath env.tmpdir "index.html") new_html_content
          let fs3 := fsWrite fs2 (joinPath env.tmpdir "README.md")
            ((fs2 (joinPath env.tmpdir "README.md")).getD ""
              ++ roundUpdateSection round_num data.brief data.checks)
          let tr := tr ++ [Act.gitPush]
          let commit_sha := env.branchSha
          let final_repo_url := env.repoHtmlUrl full_repo_name
          let pages_url := "https://" ++ env.userLogin ++ ".github.io/" ++ repo_name ++ "/"
          finishNotify env tr fs3 final_repo_url pages_url commit_sha

/-- Model of `handle_request` (`server.py:205-393`).  Credentials are
checked first (`ALLOWED.get(email) != secret` raises 403); then
`round_num = data.get("round", 1)` dispatches: the create branch exactly
when `round_num == 1`, the update branch otherwise. -/
def handleRequest (env : Env) (data : RequestData) : Outcome :=
  if ALLOWED_get env.envSecret data.email ≠ data.secret then
    { result := HResult.httpError 403 "Secret mismatch", trace := [], fs := fsEmpty }
  else
    let round_num : Int := data.round.getD 1
    if round_num = 1 then
      handleRound1 env data round_num
    else
      handleRound2 env data round_num

/-! ### Properties of the sanitization primitives -/

/-- Bridge between the executable test and the `<+:` relation. -/
theorem ipoIff (p s : List Char) : p.isPrefixOf s = true ↔ p <+: s :=
  List.isPrefixOf_iff_prefix

/-- The fuel argument of `replaceAllFuel` is irrelevant once it covers the
length of the string. -/
theorem replaceAllFuel_congr {p : List Char} (hp : p ≠ []) :
    ∀ f₁ f₂ : Nat, ∀ s : List Char, s.length ≤ f₁ → s.length ≤ f₂ →
      replaceAllFuel p f₁ s = replaceAllFuel p f₂ s := by
  intro f₁
  induction f₁ with
  | zero =>
    intro f₂ s h1 _
    have hs : s = [] := List.eq_nil_of_length_eq_zero (Nat.le_zero.mp h1)
    subst hs
    cases f₂ <;> rfl
  | succ f ih =>
    intro f₂ s h1 h2
    cases s with
    | nil => cases f₂ <;> rfl
    | cons c rest =>
      cases f₂ with
      | zero => simp at h2
      | succ g =>
        have hp1 : 1 ≤ p.length := by
          cases p with
          | nil => exact absurd rfl hp
          | cons a as => simp
        simp only [List.length_cons] at h1 h2
        cases hpre : p.isPrefixOf (c :: rest) with
        | true =>
          simp only [replaceAllFuel, hpre, if_true]
          apply ih
          · have : (rest.drop (p.length - 1)).length ≤ rest.length := by
              simp [List.length_drop]
            omega
          · have : (rest.drop (p.length - 1)).length ≤ rest.length := by
              simp [List.length_drop]
            omega
        | false =>
          simp only [replaceAllFuel, hpre, if_false, Bool.false_eq_true]
          rw [ih g rest (by omega) (by omega)]

/-- Unfolding `replaceAll` at a match position. -/
theorem replaceAll_pos {p s : List Char} (hp : p ≠ []) (h : p.isPrefixOf s = true) :
    replaceAll p s = replaceAll p (s.drop p.length) := by
  cases s with
  | nil =>
    cases p with
    | nil => exact absurd rfl hp
    | cons a as => simp [List.isPrefixOf] at h
  | cons c rest =>
    have hdrop : (c :: rest).drop p.length = rest.drop (p.length - 1) := by
      cases p with
      | nil => exact absurd rfl hp
      | cons a as => simp
    unfold replaceAll
    simp only [List.length_cons, replaceAllFuel, h, if_true]
    rw [hdrop]
    apply replaceAllFuel_congr hp
    · simp [List.length_drop]
    · exact Nat.le_refl _

/-- Unfolding `replaceAll` at a non-match position. -/
theorem replaceAll_neg {p : List Char} {c : Char} {rest : List Char}
    (h : p.isPrefixOf (c :: rest) = false) :
    replaceAll p (c :: rest) = c :: replaceAll p rest := by
  unfold replaceAll
  simp only [List.length_cons, replaceAllFuel, h, if_false, Bool.false_eq_true]

/-- Deleting a pattern that sits at the front. -/
theorem replaceAll_left {p : List Char} (hp : p ≠ []) (t : List Char) :
    replaceAll p (p ++ t) = replaceAll p t := by
  have h : p.isPrefixOf (p ++ t) = true := (ipoIff _ _).mpr (List.prefix_append p t)
  rw [replaceAll_pos hp h, List.drop_append_of_le_length (Nat.le_refl _),
    List.drop_length, List.nil_append]

/-- A pattern without whitespace never matches at a whitespace character. -/
theorem not_ipo_of_space {p : List Char} (hnp : ∀ x ∈ p, isSpace x = false)
    (hp : p ≠ []) {c : Char} (hc : isSpace c = true) (rest : List Char) :
    p.isPrefixOf (c :: rest) = false := by
  cases p with
  | nil => exact absurd rfl hp
  | cons a as =>
    cases h : (a :: as).isPrefixOf (c :: rest) with
    | false => rfl
    | true =>
      exfalso
      have h2 := (ipoIff _ _).mp h
      rw [List.cons_prefix_cons] at h2
      have ha := hnp a (List.mem_cons_self a as)
      rw [h2.1] at ha
      rw [hc] at ha
      exact Bool.true_eq_false.mp ha

/-- A prefix of `x ++ y` no longer than `x` is a prefix of `x`. -/
theorem ipo_append_left : ∀ {p x : List Char} {y : List Char},
    p <+: x ++ y → p.length ≤ x.length → p <+: x := by
  intro p
  induction p with
  | nil =>
    intro x y _ _
    exact List.nil_prefix
  | cons a p' ih =>
    intro x y h hlen
    cases x with
    | nil => simp at hlen
    | cons b x' =>
      rw [List.cons_append, List.cons_prefix_cons] at h
      simp only [List.length_cons] at hlen
      rw [List.cons_prefix_cons]
      exact ⟨h.1, ih h.2 (by omega)⟩

/-- A prefix of `a ++ c :: b` reaching past `a` contains `c`. -/
theorem mem_of_prefix_past {c : Char} {b : List Char} :
    ∀ {a p : List Char}, p <+: a ++ c :: b → a.length < p.length → c ∈ p := by
  intro a
  induction a with
  | nil =>
    intro p h hlen
    cases p with
    | nil => simp at hlen
    | cons d p' =>
      rw [List.nil_append, List.cons_prefix_cons] at h
      rw [← h.1]
      exact List.mem_cons_self d p'
  | cons d a' ih =>
    intro p h hlen
    cases p with
    | nil => simp at hlen
    | cons e p' =>
      rw [List.cons_append, List.cons_prefix_cons] at h
      simp only [List.length_cons] at hlen
      exact List.mem_cons_of_mem e (ih h.2 (by omega))

/-- Core decomposition: a whitespace character splits the `replaceAll`
scan in two, because a whitespace-free pattern cannot straddle it. -/
theorem replaceAll_mid_aux {p : List Char} (hp : p ≠ [])
    (hnp : ∀ x ∈ p, isSpace x = false) {c : Char} (hc : isSpace c = true) :
    ∀ n : Nat, ∀ a b : List Char, a.length ≤ n →
      replaceAll p (a ++ c :: b) = replaceAll p a ++ c :: replaceAll p b := by
  intro n
  induction n with
  | zero =>
    intro a b ha
    have : a = [] := List.eq_nil_of_length_eq_zero (Nat.le_zero.mp ha)
    subst this
    rw [List.nil_append, replaceAll_neg (not_ipo_of_space hnp hp hc b)]
    rfl
  | succ n ih =>
    intro a b ha
    cases a with
    | nil =>
      rw [List.nil_append, replaceAll_neg (not_ipo_of_space hnp hp hc b)]
      rfl
    | cons d a' =>
      simp only [List.length_cons] at ha
      rw [List.cons_append]
      cases hpre : p.isPrefixOf (d :: (a' ++ c :: b)) with
      | false =>
        have hpre2 : p.isPrefixOf (d :: a') = false := by
          cases h2 : p.isPrefixOf (d :: a') with
          | false => rfl
          | true =>
            exfalso
            have h3 := ((ipoIff _ _).mp h2).trans (List.prefix_append (d :: a') (c :: b))
            rw [List.cons_append] at h3
            rw [(ipoIff _ _).mpr h3] at hpre
            exact Bool.true_eq_false.mp hpre
        rw [replaceAll_neg hpre, replaceAll_neg hpre2, ih a' b (by omega),
          List.cons_append]
      | true =>
        by_cases hlen : p.length ≤ (d :: a').length
        · have hpw : p.isPrefixOf ((d :: a') ++ c :: b) = true := by
            rw [List.cons_append]; exact hpre
          have hpx : p.isPrefixOf (d :: a') = true :=
            (ipoIff _ _).mpr (ipo_append_left ((ipoIff _ _).mp hpw) hlen)
          rw [← List.cons_append, replaceAll_pos hp hpw,
            List.drop_append_of_le_length hlen, replaceAll_pos hp hpx]
          apply ih
          have h1 : 1 ≤ p.length := by
            cases p with
            | nil => exact absurd rfl hp
            | cons u us => simp
          have : ((d :: a').drop p.length).length = a'.length + 1 - p.length := by
            simp [List.length_drop]
          omega
        · exfalso
          have hcp : c ∈ p := by
            apply mem_of_prefix_past (a := d :: a')
            · rw [List.cons_append]
              exact (ipoIff _ _).mp hpre
            · omega
          have := hnp c hcp
          rw [hc] at this
          exact Bool.true_eq_false.mp this

/-- A whitespace character splits the scan (packaged form). -/
theorem replaceAll_mid {p : List Char} (hp : p ≠ [])
    (hnp : ∀ x ∈ p, isSpace x = false) {c : Char} (hc : isSpace c = true)
    (a b : List Char) :
    replaceAll p (a ++ c :: b) = replaceAll p a ++ c :: replaceAll p b :=
  replaceAll_mid_aux hp hnp hc a.length a b (Nat.le_refl _)

/-- All-whitespace text is left intact. -/
theorem replaceAll_ws {p : List Char} (hp : p ≠ [])
    (hnp : ∀ x ∈ p, isSpace x = false) :
    ∀ w : List Char, (∀ x ∈ w, isSpace x = true) → replaceAll p w = w := by
  intro w
  induction w with
  | nil => intro _; rfl
  | cons c w' ih =>
    intro hws
    rw [replaceAll_neg (not_ipo_of_space hnp hp (hws c (List.mem_cons_self c w')) w'),
      ih (fun x hx => hws x (List.mem_cons_of_mem c hx))]

/-- All-whitespace padding on the left passes through the scan. -/
theorem replaceAll_ws_left {p : List Char} (hp : p ≠ [])
    (hnp : ∀ x ∈ p, isSpace x = false) :
    ∀ w t : List Char, (∀ x ∈ w, isSpace x = true) →
      replaceAll p (w ++ t) = w ++ replaceAll p t := by
  intro w
  induction w with
  | nil => intro t _; rfl
  | cons c w' ih =>
    intro t hws
    rw [List.cons_append,
      replaceAll_neg (not_ipo_of_space hnp hp (hws c (List.mem_cons_self c w')) (w' ++ t)),
      ih t (fun x hx => hws x (List.mem_cons_of_mem c hx)), List.cons_append]

/-- All-whitespace padding on the right passes through the scan. -/
theorem replaceAll_ws_right {p : List Char} (hp : p ≠ [])
    (hnp : ∀ x ∈ p, isSpace x = false) :
    ∀ t w : List Char, (∀ x ∈ w, isSpace x = true) →
      replaceAll p (t ++ w) = replaceAll p t ++ w := by
  intro t w
  cases w with
  | nil => intro _; rw [List.append_nil, List.append_nil]
  | cons c w' =>
    intro hws
    rw [replaceAll_mid hp hnp (hws c (List.mem_cons_self c w')) t w',
      replaceAll_ws hp hnp w' (fun x hx => hws x (List.mem_cons_of_mem c hx))]

/-- Stripping absorbs a leading whitespace character. -/
theorem strip_cons_of_space {c : Char} (hc : isSpace c = true) (t : List Char) :
    strip (c :: t) = strip t := by
  simp [strip, stripLeft, List.dropWhile_cons, hc]

/-- Function `stripRight` absorbs a trailing whitespace character. -/
theorem stripRight_concat_of_space {c : Char} (hc : isSpace c = true) (x : List Char) :
    stripRight (x ++ [c]) = stripRight x := by
  simp [stripRight, List.reverse_append, List.dropWhile_cons, hc]

/-- Stripping absorbs a trailing whitespace character. -/
theorem strip_concat_of_space {c : Char} (hc : isSpace c = true) (t : List Char) :
    strip (t ++ [c]) = strip t := by
  unfold strip stripLeft
  rw [List.dropWhile_append]
  by_cases h : (t.dropWhile isSpace).isEmpty
  · simp only [h, if_true]
    rw [List.isEmpty_iff] at h
    rw [h]
    simp [List.dropWhile_cons, hc, stripRight]
  · simp only [h, if_false]
    exact stripRight_concat_of_space hc _

/-- Stripping absorbs all-whitespace padding on the left. -/
theorem strip_ws_left : ∀ w t : List Char, (∀ x ∈ w, isSpace x = true) →
    strip (w ++ t) = strip t := by
  intro w
  induction w with
  | nil => intro t _; rfl
  | cons c w' ih =>
    intro t hws
    rw [List.cons_append, strip_cons_of_space (hws c (List.mem_cons_self c w')),
      ih t (fun x hx => hws x (List.mem_cons_of_mem c hx))]

/-- Stripping absorbs all-whitespace padding on the right. -/
theorem strip_ws_right : ∀ w t : List Char, (∀ x ∈ w, isSpace x = true) →
    strip (t ++ w) = strip t := by
  intro w
  induction w with
  | nil => intro t _; rw [List.append_nil]
  | cons c w' ih =>
    intro t hws
    rw [show t ++ c :: w' = (t ++ [c]) ++ w' by simp,
      ih (t ++ [c]) (fun x hx => hws x (List.mem_cons_of_mem c hx)),
      strip_concat_of_space (hws c (List.mem_cons_self c w'))]

/-- Every string is all-whitespace padding around its stripped core. -/
theorem strip_decomp (s : List Char) :
    ∃ w1 w2 : List Char, (∀ x ∈ w1, isSpace x = true) ∧
      (∀ x ∈ w2, isSpace x = true) ∧ s = w1 ++ (strip s ++ w2) := by
  refine ⟨s.takeWhile isSpace,
    ((s.dropWhile isSpace).reverse.takeWhile isSpace).reverse, ?_, ?_, ?_⟩
  · intro x hx
    exact List.mem_takeWhile_imp hx
  · intro x hx
    exact List.mem_takeWhile_imp (List.mem_reverse.mp hx)
  · have h1 : s = s.takeWhile isSpace ++ s.dropWhile isSpace :=
      (List.takeWhile_append_dropWhile isSpace s).symm
    have h2 : s.dropWhile isSpace =
        strip s ++ ((s.dropWhile isSpace).reverse.takeWhile isSpace).reverse := by
      have h3 : (s.dropWhile isSpace).reverse =
          (s.dropWhile isSpace).reverse.takeWhile isSpace ++
          (s.dropWhile isSpace).reverse.dropWhile isSpace :=
        (List.takeWhile_append_dropWhile isSpace _).symm
      calc s.dropWhile isSpace = (s.dropWhile isSpace).reverse.reverse := by
              rw [List.reverse_reverse]
        _ = ((s.dropWhile isSpace).reverse.takeWhile isSpace ++
              (s.dropWhile isSpace).reverse.dropWhile isSpace).reverse := by
              rw [← h3]
        _ = strip s ++ ((s.dropWhile isSpace).reverse.takeWhile isSpace).reverse := by
              rw [List.reverse_append]
              rfl
    rw [← h2, ← h1]

/-- Pattern `phPat` is non-empty. -/
theorem phPat_ne : phPat ≠ [] := by decide

/-- Pattern `phPat` contains no whitespace. -/
theorem phPat_nosp : ∀ x ∈ phPat, isSpace x = false := by decide

/-- Pattern `btPat` is non-empty. -/
theorem btPat_ne : btPat ≠ [] := by decide

/-- Pattern `btPat` contains no whitespace. -/
theorem btPat_nosp : ∀ x ∈ btPat, isSpace x = false := by decide

/-- The inner `strip` of the sanitization pipeline is redundant: the outer
one removes the same padding after the replacements pass it through. -/
theorem sanitizeList_strip (s : List Char) :
    strip (replaceAll btPat (replaceAll phPat s)) = sanitizeList s := by
  obtain ⟨w1, w2, h1, h2, hs⟩ := strip_decomp s
  conv_lhs => rw [hs]
  rw [replaceAll_ws_left phPat_ne phPat_nosp w1 _ h1,
    replaceAll_ws_right phPat_ne phPat_nosp (strip s) w2 h2,
    replaceAll_ws_left btPat_ne btPat_nosp w1 _ h1,
    replaceAll_ws_right btPat_ne btPat_nosp (replaceAll phPat (strip s)) w2 h2,
    strip_ws_left w1 _ h1, strip_ws_right w2 _ h2]
  rfl

/-- Fence-wrapping invariance on character lists: sanitizing
`"```html\n" ++ X ++ "\n```"` gives the same result as sanitizing `X`. -/
theorem sanitizeList_fenced (X : List Char) :
    sanitizeList ("```html\n".toList ++ X ++ "\n```".toList) = sanitizeList X := by
  have hw : ("```html\n".toList : List Char) = phPat ++ ['\n'] := by decide
  have hsuf : ("\n```".toList : List Char) = '\n' :: btPat := by decide
  rw [← sanitizeList_strip, ← sanitizeList_strip X, hw, hsuf]
  rw [List.append_assoc, List.append_assoc, replaceAll_left phPat_ne]
  rw [List.singleton_append,
    replaceAll_neg (not_ipo_of_space phPat_nosp phPat_ne (by decide) _),
    replaceAll_mid phPat_ne phPat_nosp (by decide) X btPat,
    show replaceAll phPat btPat = btPat from by decide,
    replaceAll_neg (not_ipo_of_space btPat_nosp btPat_ne (by decide) _),
    replaceAll_mid btPat_ne btPat_nosp (by decide) (replaceAll phPat X) btPat,
    show replaceAll btPat btPat = ([] : List Char) from by decide,
    strip_cons_of_space (by decide),
    show replaceAll btPat (replaceAll phPat X) ++ '\n' :: ([] : List Char) =
      replaceAll btPat (replaceAll phPat X) ++ ['\n'] from rfl,
    strip_concat_of_space (by decide)]

/-! ### Properties of the orchestrator building blocks -/

/-- The notification step appends exactly the callback action. -/
theorem finishNotify_trace (env : Env) (tr : List Act) (fs : String → Option String)
    (ru pu sha : String) :
    (finishNotify env tr fs ru pu sha).trace = tr ++ [Act.postCallback] := by
  unfold finishNotify
  split <;> rfl

/-- The create branch never clones. -/
theorem handleRound1_no_clone (env : Env) (data : RequestData) (rn : Int) :
    Act.gitClone ∉ (handleRound1 env data rn).trace := by
  simp only [handleRound1, finishNotify]
  repeat' split
  all_goals simp

/-- The update branch never creates a repository. -/
theorem handleRound2_no_create (env : Env) (data : RequestData) (rn : Int) :
    Act.ghCreateRepo ∉ (handleRound2 env data rn).trace := by
  simp only [handleRound2, finishNotify]
  repeat' split
  all_goals simp

/-- A fully successful external world, used to instantiate witnesses. -/
def baseEnv : Env where
  envSecret := some "S3CR3T"
  clientConfigured := true
  userLogin := "octo"
  repoCheck := fun _ => RepoCheck.notFound
  createOk := true
  gitOk := true
  pagesStatus := 201
  repoFound := fun _ => true
  cloneFiles := [("index.html", "OLDHTML"), ("README.md", "ORIGINAL")]
  decode := fun _ => some "DATA"
  llmResponse := Except.ok "<p>hi</p>"
  branchSha := "sha1"
  repoHtmlUrl := fun n => "https://github.com/" ++ n
  callbackResponds := fun _ => true
  tmpdir := "/tmp/stage"

/-- A well-formed round-1 request, used to instantiate witnesses. -/
def baseData : RequestData where
  email := some "student@example.com"
  secret := some "S3CR3T"
  brief := "a todo list"
  task := "todo-app"
  evaluation_url := "https://eval.example/cb"
  nonce := "abc123"
  round := some 1
  repo_url := none
  attachments := []
  checks := []

/-- C1: a round-1 request whose derived identity already exists at the
remote is rejected with 409 (`ProjectAlreadyExists`) and the LLM is never
invoked for it. -/
theorem c1_duplicate_identity_rejected (env : Env) (data : RequestData)
    (hauth : ALLOWED_get env.envSecret data.email = data.secret)
    (hround : data.round.getD 1 = 1)
    (hdup : env.repoCheck
        (env.userLogin ++ "/" ++ round1RepoName data.task data.nonce)
      = RepoCheck.found) :
    (handleRequest env data).result = HResult.httpError 409
      ("Repository '" ++ (env.userLogin ++ "/" ++ round1RepoName data.task data.nonce)
        ++ "' already exists")
    ∧ Act.llmGenerate ∉ (handleRequest env data).trace := by
  simp [handleRequest, handleRound1, hauth, hround, hdup]

/-- Environment for the C1 witness: the probed repository exists. -/
def envC1 : Env := { baseEnv with repoCheck := fun _ => RepoCheck.found }

/-- Witness for C1 at a concrete request. -/
theorem c1_witness :
    (handleRequest envC1 baseData).result = HResult.httpError 409
      ("Repository '" ++ (envC1.userLogin ++ "/"
        ++ round1RepoName baseData.task baseData.nonce) ++ "' already exists")
    ∧ Act.llmGenerate ∉ (handleRequest envC1 baseData).trace :=
  c1_duplicate_identity_rejected envC1 baseData (by decide) rfl rfl

/-- C2: when every callback POST fails, the notifier makes exactly 5
attempts (sleeping 1+2+4+8), reports failure, and the request fails 500. -/
theorem c2_notify_exhaustion (env : Env) (data : RequestData) (html : String)
    (hfail : ∀ n, env.callbackResponds n = false)
    (hauth : ALLOWED_get env.envSecret data.email = data.secret)
    (hround : data.round.getD 1 = 1)
    (hcheck : env.repoCheck
        (env.userLogin ++ "/" ++ round1RepoName data.task data.nonce)
      = RepoCheck.notFound)
    (hclient : env.clientConfigured = true)
    (hllm : env.llmResponse = Except.ok html)
    (hcreate : env.createOk = true)
    (hgit : env.gitOk = true) :
    post_with_retry env.callbackResponds 5 = (false, 5, 15)
    ∧ (handleRequest env data).result
        = HResult.httpError 500 "Failed to notify evaluation URL" := by
  have hcb : env.callbackResponds = fun _ => false := funext hfail
  have hpost : post_with_retry env.callbackResponds 5 = (false, 5, 15) := by
    rw [hcb]; decide
  refine ⟨hpost, ?_⟩
  simp [handleRequest, handleRound1, finishNotify, generate_code_with_llm,
    hauth, hround, hcheck, hclient, hllm, hcreate, hgit, hpost]

/-- Environment for the C2 witness: the callback endpoint always fails. -/
def envC2 : Env := { baseEnv with callbackResponds := fun _ => false }

/-- Witness for C2 at a concrete request. -/
theorem c2_witness :
    post_with_retry envC2.callbackResponds 5 = (false, 5, 15)
    ∧ (handleRequest envC2 baseData).result
        = HResult.httpError 500 "Failed to notify evaluation URL" :=
  c2_notify_exhaustion envC2 baseData "<p>hi</p>" (fun _ => rfl) (by decide)
    rfl rfl rfl rfl rfl rfl

/-- C3: if the callback fails the first N-1 attempts and succeeds on
attempt N (N ≤ 5), the notifier reports success after exactly N attempts,
having slept at least 1 + 2 + ... + 2^(N-2) delay units beforehand. -/
theorem c3_notifier_backoff (N : Nat) (h1 : 1 ≤ N) (h5 : N ≤ 5) :
    (post_with_retry (fun k => k == N - 1) 5).1 = true
    ∧ (post_with_retry (fun k => k == N - 1) 5).2.1 = N
    ∧ ((List.range (N - 1)).map (fun i => 2 ^ i)).sum
        ≤ (post_with_retry (fun k => k == N - 1) 5).2.2 := by
  interval_cases N <;> decide

/-- Witness for C3 at N = 4. -/
theorem c3_witness :
    (post_with_retry (fun k => k == 4 - 1) 5).1 = true
    ∧ (post_with_retry (fun k => k == 4 - 1) 5).2.1 = 4
    ∧ ((List.range (4 - 1)).map (fun i => 2 ^ i)).sum
        ≤ (post_with_retry (fun k => k == 4 - 1) 5).2.2 :=
  c3_notifier_backoff 4 (by decide) (by decide)

/-- Environment for C5: the model answers an empty fenced block. -/
def envC5 : Env := { baseEnv with llmResponse := Except.ok "```html\n```" }

/-- C5 (code divergence): a response that is empty after sanitization is
not treated as an error — the generator returns the empty artifact and
the request proceeds to publish it. -/
theorem c5_empty_artifact_proceeds :
    generate_code_with_llm true (Except.ok "```html\n```") "a todo list" [] 1 none
      = Except.ok ""
    ∧ (handleRequest envC5 baseData).fs (joinPath "/tmp/stage" "index.html")
      = some ""
    ∧ (handleRequest envC5 baseData).result
      = HResult.ok "https://github.com/octo/todo-app-abc123"
          "https://octo.github.io/todo-app-abc123/" "sha1" := by
  refine ⟨by rfl, by decide, by decide⟩

/-- C6: wrapping the model output in fenced-code markers does not change
the sanitized artifact. -/
theorem c6_sanitize_fence_invariant (X : String) :
    sanitize ("```html\n" ++ X ++ "\n```") = sanitize X := by
  unfold sanitize
  have h : ("```html\n" ++ X ++ "\n```").toList
      = "```html\n".toList ++ X.toList ++ "\n```".toList := by
    simp [String.toList, String.data_append]
  rw [h, sanitizeList_fenced]

/-- Request for C7: an identity outside the allow-list and no secret
field at all. -/
def dataC7 : RequestData :=
  { baseData with email := some "attacker@example.org", secret := none }

/-- C7 (code divergence): with an identity that is not allow-listed and a
missing secret, `ALLOWED.get(email) != secret` compares `None != None`,
so authentication passes and the request reaches GitHub and the LLM
instead of failing 403. -/
theorem c7_auth_bypass :
    ALLOWED_get baseEnv.envSecret dataC7.email = none
    ∧ dataC7.secret = none
    ∧ (handleRequest baseEnv dataC7).result
        ≠ HResult.httpError 403 "Secret mismatch"
    ∧ Act.ghGetUser ∈ (handleRequest baseEnv dataC7).trace
    ∧ Act.llmGenerate ∈ (handleRequest baseEnv dataC7).trace := by
  refine ⟨by decide, by decide, by decide, by decide, by decide⟩

/-- C8 (code divergence): an attachment whose declared name is an
absolute path is written outside the staging directory — no rejection or
sandboxing happens. -/
theorem c8_attachment_escape :
    handle_attachments (fun _ => some "ABC") "/tmp/stage"
        [{ name := some "/evil", url := some "data:application/octet-stream;base64,QUJD" }]
      = ([("/evil", "ABC")], ["/evil"])
    ∧ isUnderDir "/tmp/stage" "/evil" = false := by
  refine ⟨by decide, by decide⟩

/-- C9: an absent round field is processed exactly like round 1; for any
present round value other than 1 the update path is taken, which demands
`repo_url` (400 when missing); the create path never clones and the
update path never creates. -/
theorem c9_round_dispatch (env : Env) (data : RequestData) (r : Int)
    (hauth : ALLOWED_get env.envSecret data.email = data.secret) :
    handleRequest env { data with round := none }
      = handleRequest env { data with round := some 1 }
    ∧ (data.round = some r → r ≠ 1 → data.repo_url = none →
        (handleRequest env data).result
          = HResult.httpError 400 "repo_url required for round 2")
    ∧ (data.round.getD 1 = 1 → Act.gitClone ∉ (handleRequest env data).trace)
    ∧ (data.round.getD 1 ≠ 1 →
        Act.ghCreateRepo ∉ (handleRequest env data).trace) := by
  refine ⟨rfl, ?_, ?_, ?_⟩
  · intro hr hne hrep
    simp [handleRequest, handleRound2, hauth, hr, hne, hrep]
  · intro h1
    simp only [handleRequest, hauth, ne_eq, not_true_eq_false, if_false, h1, if_true]
    exact handleRound1_no_clone env data 1
  · intro h1
    simp only [handleRequest, hauth, ne_eq, not_true_eq_false, if_false, h1]
    exact handleRound2_no_create env data (data.round.getD 1)

/-- Witness for C9 at a concrete request. -/
theorem c9_witness :
    handleRequest baseEnv { baseData with round := none }
      = handleRequest baseEnv { baseData with round := some 1 }
    ∧ (baseData.round = some 2 → (2 : Int) ≠ 1 → baseData.repo_url = none →
        (handleRequest baseEnv baseData).result
          = HResult.httpError 400 "repo_url required for round 2")
    ∧ (baseData.round.getD 1 = 1 →
        Act.gitClone ∉ (handleRequest baseEnv baseData).trace)
    ∧ (baseData.round.getD 1 ≠ 1 →
        Act.ghCreateRepo ∉ (handleRequest baseEnv baseData).trace) :=
  c9_round_dispatch baseEnv baseData 2 (by decide)

/-- The attachment loop is the per-entry summary folded over the input in
order: skipped entries contribute nothing and do not stop the loop. -/
theorem handle_attachments_eq (decode : String → Option String) (tmpdir : String) :
    ∀ atts : List AttachJson,
      handle_attachments decode tmpdir atts
        = ((atts.filterMap (processAttachment decode tmpdir)).map (fun t => (t.1, t.2.1)),
           (atts.filterMap (processAttachment decode tmpdir)).map (fun t => t.2.2)) := by
  intro atts
  induction atts with
  | nil => rfl
  | cons a rest ih =>
    cases hn : a.name with
    | none =>
      simp [handle_attachments, processAttachment, hn, ih, List.filterMap_cons]
    | some nm =>
      cases hu : a.url with
      | none =>
        simp [handle_attachments, processAttachment, hn, hu, ih, List.filterMap_cons]
      | some u =>
        cases hb : containsSub b64Marker u.data with
        | false =>
          simp [handle_attachments, processAttachment, hn, hu, hb, ih, List.filterMap_cons]
        | true =>
          cases hd : decode (splitSegAfterBase64 u) with
          | none =>
            simp [handle_attachments, processAttachment, hn, hu, hb, hd, ih,
              List.filterMap_cons]
          | some bytes =>
            simp [handle_attachments, processAttachment, hn, hu, hb, hd, ih,
              List.filterMap_cons]

/-- C10: `handle_attachments` writes a file exactly for the entries whose
data URI contains "base64," and whose processing raises no error; failing
entries are skipped without aborting the rest; the returned name list is
precisely the names of the files written, in input order. -/
theorem c10_attachments_characterization (decode : String → Option String)
    (tmpdir : String) (atts : List AttachJson) :
    (handle_attachments decode tmpdir atts).1
      = (atts.filterMap (processAttachment decode tmpdir)).map (fun t => (t.1, t.2.1))
    ∧ (handle_attachments decode tmpdir atts).2
      = (atts.filterMap (processAttachment decode tmpdir)).map (fun t => t.2.2)
    ∧ ∀ a ∈ atts, ∀ t, processAttachment decode tmpdir a = some t →
        ∃ u, a.url = some u ∧ containsSub b64Marker u.data = true := by
  refine ⟨?_, ?_, ?_⟩
  · rw [handle_attachments_eq]
  · rw [handle_attachments_eq]
  · intro a _ t ht
    unfold processAttachment at ht
    cases hn : a.name with
    | none => rw [hn] at ht; simp at ht
    | some nm =>
      cases hu : a.url with
      | none => rw [hn, hu] at ht; simp at ht
      | some u =>
        rw [hn, hu] at ht
        cases hb : containsSub b64Marker u.data with
        | false => simp [hb] at ht
        | true => exact ⟨u, rfl, hb⟩

/-- Witness for C10 on a mixed attachment list (one good entry, one entry
without the marker, one failing decode, one missing name). -/
theorem c10_witness :
    (handle_attachments (fun d => if d = "QQ==" then some "A" else none) "/t"
        [{ name := some "good.bin", url := some "data:;base64,QQ==" },
         { name := some "nomarker.bin", url := some "data:;b64,QQ==" },
         { name := some "bad.bin", url := some "data:;base64,%%%" },
         { name := none, url := some "data:;base64,QQ==" }]).1
      = ([{ name := some "good.bin", url := some "data:;base64,QQ==" },
          { name := some "nomarker.bin", url := some "data:;b64,QQ==" },
          { name := some "bad.bin", url := some "data:;base64,%%%" },
          { name := none, url := some "data:;base64,QQ==" }].filterMap
            (processAttachment (fun d => if d = "QQ==" then some "A" else none) "/t")).map
          (fun t => (t.1, t.2.1))
    ∧ (handle_attachments (fun d => if d = "QQ==" then some "A" else none) "/t"
        [{ name := some "good.bin", url := some "data:;base64,QQ==" },
         { name := some "nomarker.bin", url := some "data:;b64,QQ==" },
         { name := some "bad.bin", url := some "data:;base64,%%%" },
         { name := none, url := some "data:;base64,QQ==" }]).2
      = ([{ name := some "good.bin", url := some "data:;base64,QQ==" },
          { name := some "nomarker.bin", url := some "data:;b64,QQ==" },
          { name := some "bad.bin", url := some "data:;base64,%%%" },
          { name := none, url := some "data:;base64,QQ==" }].filterMap
            (processAttachment (fun d => if d = "QQ==" then some "A" else none) "/t")).map
          (fun t => t.2.2)
    ∧ ∀ a ∈ [{ name := some "good.bin", url := some "data:;base64,QQ==" },
         { name := some "nomarker.bin", url := some "data:;b64,QQ==" },
         { name := some "bad.bin", url := some "data:;base64,%%%" },
         { name := none, url := some "data:;base64,QQ==" }],
        ∀ t, processAttachment (fun d => if d = "QQ==" then some "A" else none) "/t" a
            = some t →
          ∃ u, a.url = some u ∧ containsSub b64Marker u.data = true :=
  c10_attachments_characterization (fun d => if d = "QQ==" then some "A" else none) "/t"
    [{ name := some "good.bin", url := some "data:;base64,QQ==" },
     { name := some "nomarker.bin", url := some "data:;b64,QQ==" },
     { name := some "bad.bin", url := some "data:;base64,%%%" },
     { name := none, url := some "data:;base64,QQ==" }]

